import Mathlib

/-! Verification of the interval-tracking and aggregation core of
src/main.py (Monitor de Atividade): the status tracker
(LogAtividade.registrar_status), the focus tracker
(LogAtividade.registrar_programa), the monitoring loop (monitorar) and the
aggregation and timeline logic of atualizar_canvas.

Timestamps are modelled as whole seconds of local wall-clock time (the code
stores and compares second-granularity strings, which round-trip
injectively), calendar days as day numbers.  SQLite REAL arithmetic
(julianday and the duration sums) is modelled exactly over the rationals. -/

/-- Calendar day of a timestamp, as compared by the SQL filter
`date(data_hora) = ?` and by `inicio.date() != hoje` in the timeline loop. -/
def dateOf (t : ℕ) : ℕ := t / 86400

/-- Minute of day, `inicio.hour * 60 + inicio.minute` in the timeline code. -/
def minuteOfDay (t : ℕ) : ℕ := t % 86400 / 60

/-- SQLite julianday of a local timestamp, exact over the rationals: days
since the julian epoch, with 1970-01-01 00:00 local time at JD 2440587.5. -/
def julianday (t : ℕ) : ℚ := 2440587.5 + (t : ℚ) / 86400

/-- Python truthiness of an optional string: None and "" are falsy. -/
def pyTruthy (o : Option String) : Bool :=
  match o with
  | none => false
  | some s => !s.isEmpty

/-- A row of the log_atividade table. -/
structure StatusRow where
  status : String
  dataHora : ℕ
  dataHoraFinal : Option ℕ
deriving DecidableEq, Repr

/-- Effective end of a row: `COALESCE(data_hora_final, DATETIME('now','localtime'))`. -/
def effEnd (r : StatusRow) (now : ℕ) : ℕ := r.dataHoraFinal.getD now

/-- In-memory state of the status tracker together with the log_atividade table. -/
structure StatusState where
  statusAtual : Option String
  log : List StatusRow
deriving DecidableEq, Repr

/-- Effect on one row of the UPDATE issued by registrar_status: it closes a row
exactly when its status matches and its data_hora_final is NULL; the start
timestamp is not part of the key. -/
def closeStatusRow (prev : String) (agora : ℕ) (r : StatusRow) : StatusRow :=
  if r.status = prev ∧ r.dataHoraFinal = none then { r with dataHoraFinal := some agora }
  else r

/-- LogAtividade.registrar_status.  `okUpd` and `okIns` model whether the two
BancoUtil.executar calls succeed: executar catches sqlite3.Error and returns
None, a failed write therefore leaves the table unchanged, and
registrar_status ignores the returned value and always updates status_atual
inside the changed branch. -/
def registrar_status (okUpd okIns : Bool) (novo : String) (agora : ℕ)
    (st : StatusState) : StatusState :=
  if st.statusAtual = some novo then st
  else
    let log1 :=
      if pyTruthy st.statusAtual && okUpd then
        st.log.map (closeStatusRow (st.statusAtual.getD "") agora)
      else st.log
    let log2 := if okIns then log1 ++ [⟨novo, agora, none⟩] else log1
    ⟨some novo, log2⟩

/-- Status classification in monitorar:
`"Ocioso" if get_idle_time() >= self.limite_ocioso else "Ativo"`. -/
def statusOf (limite idle : ℚ) : String := if limite ≤ idle then "Ocioso" else "Ativo"

/-- One monitorar tick of the status tracker (idle-seconds sample and clock
reading), with both database writes succeeding. -/
def monitorStatusStep (limite : ℚ) (st : StatusState) (s : ℚ × ℕ) : StatusState :=
  registrar_status true true (statusOf limite s.1) s.2 st

/-- A run of monitorar status ticks from process start
(status_atual = None, empty table). -/
def runStatus (limite : ℚ) (samples : List (ℚ × ℕ)) : StatusState :=
  samples.foldl (monitorStatusStep limite) ⟨none, []⟩

/-- Number of open rows (data_hora_final IS NULL) of a status series. -/
def openCountS (l : List StatusRow) : ℕ := l.countP fun r => r.dataHoraFinal.isNone

/-- Zero-gap chaining between two successive status rows. -/
def segueS (a b : StatusRow) : Prop := a.dataHoraFinal = some b.dataHora

/-- The whole status series is exactly chained. -/
def chainedS (l : List StatusRow) : Prop := List.Chain' segueS l

/-- A row of the programas_documentos table. -/
structure ProgRow where
  nomePrograma : Option String
  nomeDocumento : Option String
  dataHoraInicio : ℕ
  dataHoraFinal : Option ℕ
deriving DecidableEq, Repr

/-- In-memory state of the focus tracker together with the
programas_documentos table. -/
structure ProgState where
  ultimoApp : Option String
  ultimoTitulo : Option String
  inicioApp : Option ℕ
  progs : List ProgRow
deriving DecidableEq, Repr

/-- SQLite equality `col = ?` on nullable operands: NULL never compares equal. -/
def sqlEqStr (col param : Option String) : Bool :=
  match col, param with
  | some a, some b => a == b
  | _, _ => false

/-- Row key of the UPDATE in registrar_programa: the exact
(nome_programa, nome_documento, data_hora_inicio) triple of the tracker state
plus data_hora_final IS NULL. -/
def matchProgKey (st : ProgState) (r : ProgRow) : Bool :=
  sqlEqStr r.nomePrograma st.ultimoApp && sqlEqStr r.nomeDocumento st.ultimoTitulo &&
    (st.inicioApp == some r.dataHoraInicio) && (r.dataHoraFinal == none)

/-- LogAtividade.registrar_programa.  The UPDATE that closes the previous open
interval is guarded by `if self.ultimo_app and self.inicio_app`, so it is
skipped whenever the last observed program is None or empty; the INSERT and
the in-memory state update always happen. -/
def registrar_programa (app titulo : Option String) (agora : ℕ) (st : ProgState) : ProgState :=
  let progs1 :=
    if pyTruthy st.ultimoApp && st.inicioApp.isSome then
      st.progs.map fun r =>
        if matchProgKey st r then { r with dataHoraFinal := some agora } else r
    else st.progs
  ⟨app, titulo, some agora, progs1 ++ [⟨app, titulo, agora, none⟩]⟩

/-- One monitorar tick of the focus tracker: registrar_programa runs only when
the sampled pair differs from the last observed pair. -/
def monitorProgramaStep (st : ProgState) (s : Option String × Option String × ℕ) : ProgState :=
  if s.1 ≠ st.ultimoApp ∨ s.2.1 ≠ st.ultimoTitulo then registrar_programa s.1 s.2.1 s.2.2 st
  else st

/-- A run of monitorar focus ticks from process start. -/
def runPrograma (samples : List (Option String × Option String × ℕ)) : ProgState :=
  samples.foldl monitorProgramaStep ⟨none, none, none, []⟩

/-- Number of open rows (data_hora_final IS NULL) of a focus series. -/
def openCountP (l : List ProgRow) : ℕ := l.countP fun r => r.dataHoraFinal.isNone

/-- Zero-gap chaining between two successive focus rows. -/
def segueP (a b : ProgRow) : Prop := a.dataHoraFinal = some b.dataHoraInicio

/-- The whole focus series is exactly chained. -/
def chainedP (l : List ProgRow) : Prop := List.Chain' segueP l

/-- Rows passing the WHERE `date(data_hora) = ?` filter of the totals query. -/
def rowsDoDia (rows : List StatusRow) (d : ℕ) : List StatusRow :=
  rows.filter fun r => dateOf r.dataHora == d

/-- Hours contributed by one row:
`(julianday(COALESCE(data_hora_final, now)) - julianday(data_hora)) * 24`. -/
def horasRow (r : StatusRow) (now : ℕ) : ℚ :=
  (julianday (effEnd r now) - julianday r.dataHora) * 24

/-- `SUM(CASE WHEN p THEN hours ELSE 0 END)` over the day-filtered rows,
as an exact rational. -/
def daySumQ (p : StatusRow → Bool) (rows : List StatusRow) (now d : ℕ) : ℚ :=
  (rowsDoDia rows d).foldr (fun r acc => (if p r then horasRow r now else 0) + acc) 0

/-- The same aggregate in whole seconds, by direct integer second differences. -/
def daySeconds (p : StatusRow → Bool) (rows : List StatusRow) (now d : ℕ) : ℕ :=
  (rowsDoDia rows d).foldr (fun r acc => (if p r then effEnd r now - r.dataHora else 0) + acc) 0

/-- SQLite SUM: NULL when no row passes the WHERE filter. -/
def sumCase (p : StatusRow → Bool) (rows : List StatusRow) (now d : ℕ) : Option ℚ :=
  if (rowsDoDia rows d).isEmpty then none else some (daySumQ p rows now d)

/-- SQLite `CAST(x AS INTEGER)` on a REAL value: truncation toward zero. -/
def sqliteCastInt (q : ℚ) : ℤ := if 0 ≤ q then ⌊q⌋ else -⌊-q⌋

/-- SQLite `%`, which casts both REAL operands to INTEGER first and then takes
the C-style truncated remainder. -/
def sqliteMod (a b : ℚ) : ℤ := Int.tmod (sqliteCastInt a) (sqliteCastInt b)

/-- SQLite `ROUND(x, 2)`, half away from zero. -/
def sqliteRound2 (q : ℚ) : ℚ :=
  if 0 ≤ q then (⌊q * 100 + 1 / 2⌋ : ℚ) / 100 else -((⌊-q * 100 + 1 / 2⌋ : ℚ) / 100)

/-- printf %02d on an integer value. -/
def pad2 (n : ℤ) : String := if 0 ≤ n ∧ n < 10 then "0" ++ toString n else toString n

/-- `printf('%02d:%02d', CAST(sum AS INTEGER), CAST(sum * 60 % 60 AS INTEGER))`,
with SQLite printf rendering NULL numeric arguments as 0. -/
def printfHHMM (sum : Option ℚ) : String :=
  let hh : ℤ := match sum with | none => 0 | some q => sqliteCastInt q
  let mm : ℤ := match sum with | none => 0 | some q => sqliteMod (q * 60) 60
  pad2 hh ++ ":" ++ pad2 mm

/-- The totals row computed by the query in atualizar_canvas:
(horas_totais, horas_ativas, horas_ociosas, percentual_horas_ociosas).
The percentage is NULL (None in Python) when the sums are NULL or when the
total is zero, mirroring SQLite NULL propagation and division by zero. -/
def consultaHoras (rows : List StatusRow) (now d : ℕ) : String × String × String × Option ℚ :=
  let total := sumCase (fun _ => true) rows now d
  let ativas := sumCase (fun r => r.status == "Ativo") rows now d
  let ociosas := sumCase (fun r => r.status == "Ocioso") rows now d
  let pct : Option ℚ :=
    match ociosas, total with
    | some o, some t => if t = 0 then none else some (sqliteRound2 (100 * o / t))
    | _, _ => none
  (printfHHMM total, printfHHMM ativas, printfHHMM ociosas, pct)

/-- Specification-side formatter, following the words of the spec: format a
whole-second duration as HH:MM by integer-minute truncation (total minutes =
seconds / 60, hours shown = minutes / 60, minutes shown = minutes % 60). -/
def specHHMM (s : ℕ) : String :=
  pad2 ((s / 60 / 60 : ℕ) : ℤ) ++ ":" ++ pad2 ((s / 60 % 60 : ℕ) : ℤ)

/-- Colors of the timeline canvas. -/
inductive Cor where
  | gray
  | green
  | red
  | lightblue
deriving DecidableEq, Repr

/-- Color chosen per row: green for "Ativo", red otherwise. -/
def corDoStatus (s : String) : Cor := if s == "Ativo" then Cor.green else Cor.red

/-- One pass of the marking loop
`for i in range(min_inicio, min_fim + 1): if 0 <= i < 1440: colors[i] = cor`:
the element at index i becomes cor exactly when a ≤ i ≤ b (each iteration
writes a distinct in-range index, so a single indexed pass yields the same
final list; ℕ indices cannot be negative and the pass never leaves the
1440-slot list). -/
def marcarDesde (cor : Cor) (a b i : ℕ) : List Cor → List Cor
  | [] => []
  | x :: xs => (if a ≤ i ∧ i ≤ b then cor else x) :: marcarDesde cor a b (i + 1) xs

/-- The marking loop applied to the whole color list, starting at index 0. -/
def marcarFaixa (c : List Cor) (cor : Cor) (a b : ℕ) : List Cor := marcarDesde cor a b 0 c

/-- Processing of one fetched row in the timeline loop: rows whose start date
is not the selected day are skipped; otherwise the minutes from the start
minute-of-day to the end minute-of-day are painted, with no day awareness. -/
def marcarRow (hoje now : ℕ) (c : List Cor) (r : StatusRow) : List Cor :=
  if dateOf r.dataHora ≠ hoje then c
  else marcarFaixa c (corDoStatus r.status) (minuteOfDay r.dataHora) (minuteOfDay (effEnd r now))

/-- One pass of the working-hours fill
`for minuto in range(8*60, 18*60): if colors[minuto] == "gray": colors[minuto] = "lightblue"`:
gray minutes in [480, 1080) become lightblue (again each iteration touches a
distinct index, so a single indexed pass yields the same final list). -/
def pintarDesde (m : ℕ) : List Cor → List Cor
  | [] => []
  | x :: xs =>
    (if 480 ≤ m ∧ m < 1080 ∧ x = Cor.gray then Cor.lightblue else x) :: pintarDesde (m + 1) xs

/-- The working-hours fill applied to the whole color list. -/
def pintarAzul (c : List Cor) : List Cor := pintarDesde 0 c

/-- Timeline colors computed by atualizar_canvas for the selected day. -/
def timelineColors (rows : List StatusRow) (hoje now : ℕ) : List Cor :=
  pintarAzul (rows.foldl (marcarRow hoje now) (List.replicate 1440 Cor.gray))

/-- Pointwise grid check: element i of the list equals f i, for every index. -/
def confereLista (f : ℕ → Cor) : ℕ → List Cor → Bool
  | _, [] => true
  | i, x :: xs => (x == f i) && confereLista f (i + 1) xs

/-- Expected grid of claim C9 as amended: slots 540 to 542 Active (green),
every other slot lightblue inside the default 08:00-18:00 window and gray
outside it. -/
def expectedGridC9 (i : ℕ) : Cor :=
  if 540 ≤ i ∧ i ≤ 542 then Cor.green
  else if 480 ≤ i ∧ i < 1080 then Cor.lightblue
  else Cor.gray

/-- Integer power of two as a rational, for either sign of the exponent. -/
def pow2z (e : ℤ) : ℚ := if 0 ≤ e then (2 : ℚ) ^ e.toNat else ((2 : ℚ) ^ (-e).toNat)⁻¹

/-- Round a rational to an integer, to nearest, ties to even. -/
def roundHalfEven (x : ℚ) : ℤ :=
  if x - ⌊x⌋ < 1 / 2 then ⌊x⌋
  else if 1 / 2 < x - ⌊x⌋ then ⌊x⌋ + 1
  else if ⌊x⌋ % 2 = 0 then ⌊x⌋ else ⌊x⌋ + 1

/-- Number of binary digits of a natural number, with explicit fuel so that
the recursion is structural (the fuel n always suffices). -/
def bitLenAux : ℕ → ℕ → ℕ
  | 0, _ => 0
  | fuel + 1, n => if n = 0 then 0 else bitLenAux fuel (n / 2) + 1

/-- Number of binary digits of a natural number. -/
def bitLen (n : ℕ) : ℕ := bitLenAux n n

/-- Floor of the base-two logarithm of a positive rational: the unique e with
2 ^ e ≤ x < 2 ^ (e + 1), located from the bit lengths of numerator and
denominator. -/
def floorLog2 (x : ℚ) : ℤ :=
  let e0 : ℤ := (bitLen x.num.toNat : ℤ) - (bitLen x.den : ℤ)
  if pow2z e0 ≤ x then e0 else e0 - 1

/-- IEEE-754 binary64 rounding of a positive rational in the normal range:
the significand is rounded to 53 bits, to nearest, ties to even. -/
def roundDoublePos (x : ℚ) : ℚ :=
  (roundHalfEven (x / pow2z (floorLog2 x - 52)) : ℚ) * pow2z (floorLog2 x - 52)

/-- IEEE-754 binary64 rounding of a rational (normal range; overflow and
subnormals do not arise in this development).  This is the value SQLite
stores for a REAL and the rounding every REAL arithmetic step applies. -/
def roundDouble (x : ℚ) : ℚ :=
  if x = 0 then 0 else if x < 0 then -roundDoublePos (-x) else roundDoublePos x

/-- SQLite julianday as actually computed: the exact integer millisecond
julian count iJD (second-granularity timestamps make it exact;
1970-01-01 00:00 local has iJD = 210866760000000) divided by 86400000.0 in
binary64 arithmetic. -/
def juliandayD (t : ℕ) : ℚ :=
  roundDouble ((210866760000000 + 1000 * (t : ℚ)) / 86400000)

/-- Hours contributed by one row with every REAL operation rounded to
binary64: `(julianday(COALESCE(data_hora_final, now)) - julianday(data_hora)) * 24`. -/
def horasRowD (r : StatusRow) (now : ℕ) : ℚ :=
  roundDouble (roundDouble (juliandayD (effEnd r now) - juliandayD r.dataHora) * 24)

/-- The day-filtered SUM(CASE ...) over binary64 values: sequential rounded
additions over the rows passing the WHERE filter. -/
def daySumD (p : StatusRow → Bool) (rows : List StatusRow) (now d : ℕ) : ℚ :=
  (rowsDoDia rows d).foldl
    (fun acc r => roundDouble (acc + (if p r then horasRowD r now else 0))) 0

/-- SQLite SUM over binary64 values: NULL when no row passes the WHERE filter. -/
def sumCaseD (p : StatusRow → Bool) (rows : List StatusRow) (now d : ℕ) : Option ℚ :=
  if (rowsDoDia rows d).isEmpty then none else some (daySumD p rows now d)

/-- `printf('%02d:%02d', CAST(sum AS INTEGER), CAST(sum * 60 % 60 AS INTEGER))`
over a binary64 sum: the `sum * 60` multiplication is itself rounded to
binary64 before the cast-and-remainder. -/
def printfHHMMD (sum : Option ℚ) : String :=
  let hh : ℤ := match sum with | none => 0 | some q => sqliteCastInt q
  let mm : ℤ := match sum with | none => 0 | some q => sqliteMod (roundDouble (q * 60)) 60
  pad2 hh ++ ":" ++ pad2 mm

instance : DecidableRel segueS := fun a b =>
  inferInstanceAs (Decidable (a.dataHoraFinal = some b.dataHora))

instance : DecidableRel segueP := fun a b =>
  inferInstanceAs (Decidable (a.dataHoraFinal = some b.dataHoraInicio))

/-- Tracker invariant for the status series: the log is exactly chained and is
either empty with no current status yet, or ends in its unique open row,
whose status is the nonempty current status, every earlier row being closed. -/
def InvS (st : StatusState) : Prop :=
  chainedS st.log ∧
  ((st.statusAtual = none ∧ st.log = []) ∨
    (∃ s pre last, st.statusAtual = some s ∧ s ≠ "" ∧ st.log = pre ++ [last] ∧
      last.status = s ∧ last.dataHoraFinal = none ∧ ∀ r ∈ pre, r.dataHoraFinal ≠ none))

lemma map_eq_self_of {α : Type} {l : List α} {f : α → α} (h : ∀ a ∈ l, f a = a) :
    l.map f = l := by
  rw [show l.map f = l.map id from List.map_congr_left fun a ha => h a ha, List.map_id]

lemma statusOf_ne_empty (limite idle : ℚ) : statusOf limite idle ≠ "" := by
  unfold statusOf
  split <;> decide

lemma pyTruthy_some {s : String} (h : s ≠ "") : pyTruthy (some s) = true := by
  unfold pyTruthy
  have hb : s.isEmpty = false := by
    cases hb : s.isEmpty
    · rfl
    · exact absurd ((String.isEmpty_iff s).mp hb) h
  simp [hb]

lemma registrar_status_unset (okIns : Bool) (novo : String) (agora : ℕ) (st : StatusState)
    (h1 : st.statusAtual = none) :
    registrar_status true okIns novo agora st
      = ⟨some novo, if okIns then st.log ++ [⟨novo, agora, none⟩] else st.log⟩ := by
  unfold registrar_status
  rw [if_neg (by rw [h1]; simp)]
  simp [h1, pyTruthy]

lemma registrar_status_closes (okIns : Bool) (novo : String) (agora : ℕ) (st : StatusState)
    (s : String) (hs : st.statusAtual = some s) (hse : s ≠ "") (hne : s ≠ novo) :
    registrar_status true okIns novo agora st
      = ⟨some novo,
          if okIns then st.log.map (closeStatusRow s agora) ++ [⟨novo, agora, none⟩]
          else st.log.map (closeStatusRow s agora)⟩ := by
  unfold registrar_status
  rw [if_neg (by rw [hs]; simpa using hne)]
  rw [hs]
  simp [pyTruthy_some hse]

lemma registrar_status_statusAtual (okUpd okIns : Bool) (novo : String) (agora : ℕ)
    (st : StatusState) : (registrar_status okUpd okIns novo agora st).statusAtual = some novo := by
  unfold registrar_status
  by_cases he : st.statusAtual = some novo
  · rw [if_pos he]
    exact he
  · rw [if_neg he]

lemma registrar_status_noop (okUpd okIns : Bool) (novo : String) (agora : ℕ)
    (st : StatusState) (h : st.statusAtual = some novo) :
    registrar_status okUpd okIns novo agora st = st := by
  unfold registrar_status
  rw [if_pos h]

lemma chainedS_close_extend {pre : List StatusRow} {last : StatusRow} {novo : String}
    {agora : ℕ} (h : chainedS (pre ++ [last])) :
    chainedS (pre ++ [{ last with dataHoraFinal := some agora }, ⟨novo, agora, none⟩]) := by
  unfold chainedS at h ⊢
  rw [List.chain'_append] at h ⊢
  refine ⟨h.1, List.chain'_pair.mpr rfl, ?_⟩
  intro x hx y hy
  simp only [List.head?, Option.mem_def, Option.some.injEq] at hy
  subst hy
  have h2 := h.2.2 x hx last (by simp)
  simpa [segueS] using h2

lemma invS_step {st : StatusState} {novo : String} (hn : novo ≠ "") (agora : ℕ)
    (h : InvS st) : InvS (registrar_status true true novo agora st) := by
  obtain ⟨hch, hcase⟩ := h
  by_cases he : st.statusAtual = some novo
  · rw [registrar_status_noop true true novo agora st he]
    exact ⟨hch, hcase⟩
  · rcases hcase with ⟨ha, hl⟩ | ⟨s, pre, last, hs, hse, hlog, hls, hlf, hpre⟩
    · have heq : registrar_status true true novo agora st
          = ⟨some novo, st.log ++ [⟨novo, agora, none⟩]⟩ := by
        rw [registrar_status_unset true novo agora st ha]
        simp
      rw [heq]
      constructor
      · rw [hl]
        exact List.chain'_singleton _
      · right
        exact ⟨novo, [], ⟨novo, agora, none⟩, rfl, hn, by rw [hl], rfl, rfl, by simp⟩
    · have hne : s ≠ novo := fun hc => he (by rw [hs, hc])
      have hmap : st.log.map (closeStatusRow s agora)
          = pre ++ [{ last with dataHoraFinal := some agora }] := by
        rw [hlog, List.map_append]
        have h1 : pre.map (closeStatusRow s agora) = pre :=
          map_eq_self_of fun r hr => by
            unfold closeStatusRow
            rw [if_neg]
            rintro ⟨-, h2⟩
            exact hpre r hr h2
        have h2 : [last].map (closeStatusRow s agora)
            = [{ last with dataHoraFinal := some agora }] := by
          simp only [List.map_cons, List.map_nil]
          unfold closeStatusRow
          rw [if_pos ⟨hls, hlf⟩]
        rw [h1, h2]
      have heq : registrar_status true true novo agora st
          = ⟨some novo,
              (pre ++ [{ last with dataHoraFinal := some agora }]) ++ [⟨novo, agora, none⟩]⟩ := by
        rw [registrar_status_closes true novo agora st s hs hse hne]
        simp [hmap]
      rw [heq]
      constructor
      · rw [List.append_assoc]
        exact chainedS_close_extend (hlog ▸ hch)
      · right
        refine ⟨novo, pre ++ [{ last with dataHoraFinal := some agora }], ⟨novo, agora, none⟩,
          rfl, hn, rfl, rfl, rfl, ?_⟩
        intro r hr
        rcases List.mem_append.mp hr with h1 | h1
        · exact hpre r h1
        · simp only [List.mem_singleton] at h1
          subst h1
          simp

lemma invS_run (limite : ℚ) (samples : List (ℚ × ℕ)) : InvS (runStatus limite samples) := by
  unfold runStatus
  have main : ∀ st : StatusState, InvS st → InvS (samples.foldl (monitorStatusStep limite) st) := by
    induction samples with
    | nil => intro st h; simpa using h
    | cons a t ih =>
      intro st h
      rw [List.foldl_cons]
      exact ih _ (invS_step (statusOf_ne_empty limite a.1) a.2 h)
  exact main _ ⟨List.chain'_nil, Or.inl ⟨rfl, rfl⟩⟩

lemma openCountS_of_inv {st : StatusState} (h : InvS st) : openCountS st.log ≤ 1 := by
  rcases h.2 with ⟨-, hl⟩ | ⟨s, pre, last, -, -, hlog, -, hlf, hpre⟩
  · rw [hl]
    simp [openCountS]
  · rw [hlog]
    unfold openCountS
    rw [List.countP_append]
    have h0 : pre.countP (fun r => r.dataHoraFinal.isNone) = 0 := by
      rw [List.countP_eq_zero]
      intro r hr
      simp only [Option.isNone_iff_eq_none]
      exact fun hc => hpre r hr hc
    rw [h0]
    simp [List.countP_cons, hlf]

lemma floor_natCast_div (s n : ℕ) (hn : 0 < n) : ⌊(s : ℚ) / (n : ℚ)⌋ = ((s / n : ℕ) : ℤ) := by
  have hnq : (0 : ℚ) < (n : ℚ) := by exact_mod_cast hn
  rw [Int.floor_eq_iff]
  constructor
  · rw [le_div_iff₀ hnq]
    exact_mod_cast Nat.div_mul_le_self s n
  · rw [div_lt_iff₀ hnq]
    have key : s < (s / n + 1) * n := by
      calc s = n * (s / n) + s % n := (Nat.div_add_mod s n).symm
        _ < n * (s / n) + n := Nat.add_lt_add_left (Nat.mod_lt s hn) _
        _ = (s / n + 1) * n := by ring
    exact_mod_cast key

lemma sqliteCastInt_natCast_div (s n : ℕ) (hn : 0 < n) :
    sqliteCastInt ((s : ℚ) / (n : ℚ)) = ((s / n : ℕ) : ℤ) := by
  unfold sqliteCastInt
  rw [if_pos (by positivity)]
  exact floor_natCast_div s n hn

lemma tmod_natCast (a b : ℕ) : Int.tmod (a : ℤ) (b : ℤ) = ((a % b : ℕ) : ℤ) := rfl

lemma sum_hours_eq (l : List StatusRow) (p : StatusRow → Bool) (now : ℕ)
    (h : ∀ r ∈ l, r.dataHora ≤ effEnd r now) :
    l.foldr (fun r acc => (if p r then horasRow r now else 0) + acc) 0
      = ((l.foldr (fun r acc => (if p r then effEnd r now - r.dataHora else 0) + acc) 0 : ℕ) : ℚ)
          / 3600 := by
  induction l with
  | nil => simp
  | cons r t ih =>
    have hr := h r (by simp)
    have ht : ∀ x ∈ t, x.dataHora ≤ effEnd x now := fun x hx => h x (by simp [hx])
    simp only [List.foldr_cons]
    rw [ih ht]
    by_cases hp : p r = true
    · rw [if_pos hp, if_pos hp]
      have hrow : horasRow r now = ((effEnd r now - r.dataHora : ℕ) : ℚ) / 3600 := by
        unfold horasRow julianday
        rw [Nat.cast_sub hr]
        ring
      rw [hrow]
      push_cast
      ring
    · rw [if_neg hp, if_neg hp]
      push_cast
      ring

lemma marcarDesde_id (cor : Cor) {a b : ℕ} (h : b < a) :
    ∀ (i : ℕ) (l : List Cor), marcarDesde cor a b i l = l := by
  intro i l
  induction l generalizing i with
  | nil => rfl
  | cons x xs ih =>
    unfold marcarDesde
    rw [if_neg, ih]
    rintro ⟨h1, h2⟩
    exact absurd (le_trans h1 h2) (by omega)

lemma registrar_programa_progs (app titulo : Option String) (agora : ℕ) (st : ProgState) :
    (registrar_programa app titulo agora st).progs
      = (if pyTruthy st.ultimoApp && st.inicioApp.isSome then
          st.progs.map fun r =>
            if matchProgKey st r then { r with dataHoraFinal := some agora } else r
        else st.progs) ++ [⟨app, titulo, agora, none⟩] := rfl

lemma registrar_status_closes_log (okIns : Bool) (novo : String) (agora : ℕ)
    (st : StatusState) (s : String) (hs : st.statusAtual = some s) (hse : s ≠ "")
    (hne : s ≠ novo) :
    (registrar_status true okIns novo agora st).log
      = if okIns then st.log.map (closeStatusRow s agora) ++ [⟨novo, agora, none⟩]
        else st.log.map (closeStatusRow s agora) := by
  rw [registrar_status_closes okIns novo agora st s hs hse hne]

/-- C1 counterexample: a concrete monitorar focus run (focus "a"/"t" at second 1,
loss of focus at second 2, focus "b"/"u" at second 3) produces successive rows
of the programas_documentos series whose previous end is NULL rather than the
next start: the close of the open (NULL, NULL) interval is skipped, so the
claimed universal zero-gap chaining prev.end == next.start is false. -/
theorem c1_counterexample :
    (runPrograma [(some "a", some "t", 1), (none, none, 2), (some "b", some "u", 3)]).progs
      = [⟨some "a", some "t", 1, some 2⟩, ⟨none, none, 2, none⟩,
          ⟨some "b", some "u", 3, none⟩] ∧
    ¬ segueP ⟨none, none, 2, none⟩ ⟨some "b", some "u", 3, none⟩ := by
  exact ⟨by decide, by decide⟩

/-- C1 (amended): whenever a transition both closes and opens, the end written
equals the start of the new interval, taken from the single `agora` reading.
Precisely: (1) every monitorar status run from the empty store leaves the
log_atividade series exactly chained (prev.end = next.start for all successive
rows); (2) in one registrar_programa step, any stored focus row whose end
changed was closed with exactly `agora`; (3) the row opened by that same step
starts at exactly `agora`.  The original claim fails only in that a focus
transition out of the (NULL, NULL) state skips the close, leaving an open
predecessor (see the counterexample). -/
theorem c1_amended :
    (∀ (limite : ℚ) (samples : List (ℚ × ℕ)), chainedS (runStatus limite samples).log) ∧
    (∀ (st : ProgState) (app titulo : Option String) (agora i : ℕ) (r r2 : ProgRow),
      st.progs[i]? = some r →
      (registrar_programa app titulo agora st).progs[i]? = some r2 →
      r2.dataHoraFinal ≠ r.dataHoraFinal →
      r2.dataHoraFinal = some agora) ∧
    (∀ (st : ProgState) (app titulo : Option String) (agora : ℕ),
      (registrar_programa app titulo agora st).progs[st.progs.length]?
        = some ⟨app, titulo, agora, none⟩) := by
  refine ⟨?_, ?_, ?_⟩
  · intro limite samples
    exact (invS_run limite samples).1
  · intro st app titulo agora i r r2 h1 h2 hne
    rcases List.getElem?_eq_some.mp h1 with ⟨hi, -⟩
    rw [registrar_programa_progs] at h2
    by_cases hg : (pyTruthy st.ultimoApp && st.inicioApp.isSome) = true
    · rw [if_pos hg, List.getElem?_append_left (by simpa using hi),
        List.getElem?_map, h1] at h2
      simp only [Option.map_some', Option.some.injEq] at h2
      by_cases hm : matchProgKey st r = true
      · rw [if_pos hm] at h2
        rw [← h2]
      · rw [if_neg hm] at h2
        exact absurd (by rw [h2]) hne
    · rw [if_neg hg, List.getElem?_append_left hi, h1] at h2
      exact absurd (by injection h2 with h3; rw [h3]) hne
  · intro st app titulo agora
    rw [registrar_programa_progs]
    have hlen : (if pyTruthy st.ultimoApp && st.inicioApp.isSome then
          st.progs.map fun r =>
            if matchProgKey st r then { r with dataHoraFinal := some agora } else r
        else st.progs).length = st.progs.length := by
      split
      · exact List.length_map _ _
      · rfl
    rw [← hlen]
    exact List.getElem?_concat_length _ _

/-- Witness for C1 (amended), parts 2 and 3: in the concrete step that loses
focus at second 2, the previously open row is closed with end 2. -/
theorem c1_amended_witness :
    (⟨some "a", some "t", some 1, [⟨some "a", some "t", 1, none⟩]⟩ : ProgState).progs[0]?
        = some ⟨some "a", some "t", 1, none⟩ ∧
    (registrar_programa none none 2
        ⟨some "a", some "t", some 1, [⟨some "a", some "t", 1, none⟩]⟩).progs[0]?
        = some ⟨some "a", some "t", 1, some 2⟩ ∧
    (⟨some "a", some "t", 1, some 2⟩ : ProgRow).dataHoraFinal = some 2 :=
  ⟨by decide, by decide,
    c1_amended.2.1 ⟨some "a", some "t", some 1, [⟨some "a", some "t", 1, none⟩]⟩ none none 2 0
      ⟨some "a", some "t", 1, none⟩ ⟨some "a", some "t", 1, some 2⟩
      (by decide) (by decide) (by decide)⟩

/-- C2 counterexample: after the concrete three-tick monitorar focus run of
c1_counterexample, the programas_documentos series holds two rows with
data_hora_final IS NULL, so the claimed at-most-one-open-interval invariant
does not hold for the focus series. -/
theorem c2_counterexample :
    openCountP (runPrograma
        [(some "a", some "t", 1), (none, none, 2), (some "b", some "u", 3)]).progs = 2 ∧
    ¬ (2 : ℕ) ≤ 1 := by
  exact ⟨by decide, by decide⟩

/-- C2 (amended): the at-most-one-open-interval invariant holds for the status
series after every monitorar run from the empty store; the focus series does
not satisfy it, because a transition out of the (NULL, NULL) focus state skips
the close: the concrete three-sample run leaves two open focus rows. -/
theorem c2_amended :
    (∀ (limite : ℚ) (samples : List (ℚ × ℕ)), openCountS (runStatus limite samples).log ≤ 1) ∧
    openCountP (runPrograma
        [(some "a", some "t", 1), (none, none, 2), (some "b", some "u", 3)]).progs = 2 := by
  constructor
  · intro limite samples
    exact openCountS_of_inv (invS_run limite samples)
  · decide

/-- C3 counterexample: the status-series close has no start key.  On a store
holding two open "Ativo" rows with different starts (100 and 200), one
registrar_status transition closes both with end 500, while the claim allows
the close to touch only the unique open interval matching an exact
(attrs, start) key and demands that a matching-status row with a different
start be left unchanged. -/
theorem c3_counterexample :
    (registrar_status true true "Ocioso" 500
        ⟨some "Ativo", [⟨"Ativo", 100, none⟩, ⟨"Ativo", 200, none⟩]⟩).log
      = [⟨"Ativo", 100, some 500⟩, ⟨"Ativo", 200, some 500⟩, ⟨"Ocioso", 500, none⟩] := by
  decide

/-- C3 (amended): for the focus series the close sets end only on stored open
rows matching the exact (nome_programa, nome_documento, data_hora_inicio) key
of the tracker state and is a no-op when no row matches (idempotent under
retry): (1) with no matching row the table merely gains the new open row;
(2) any non-matching row is left unchanged at its position.  For the status
series the close is keyed on the status alone, with no start component:
(3) every open row whose status equals the tracker status is closed with the
new end, regardless of its start timestamp. -/
theorem c3_amended :
    (∀ (st : ProgState) (app titulo : Option String) (agora : ℕ),
      (∀ r ∈ st.progs, matchProgKey st r = false) →
      (registrar_programa app titulo agora st).progs
        = st.progs ++ [⟨app, titulo, agora, none⟩]) ∧
    (∀ (st : ProgState) (app titulo : Option String) (agora i : ℕ) (r : ProgRow),
      st.progs[i]? = some r → matchProgKey st r = false →
      (registrar_programa app titulo agora st).progs[i]? = some r) ∧
    (∀ (okIns : Bool) (st : StatusState) (s novo : String) (agora i : ℕ) (r : StatusRow),
      st.statusAtual = some s → s ≠ "" → s ≠ novo →
      st.log[i]? = some r → r.status = s → r.dataHoraFinal = none →
      (registrar_status true okIns novo agora st).log[i]?
        = some ⟨r.status, r.dataHora, some agora⟩) := by
  refine ⟨?_, ?_, ?_⟩
  · intro st app titulo agora hnone
    rw [registrar_programa_progs]
    congr 1
    split
    · exact map_eq_self_of fun r hr => by simp [hnone r hr]
    · rfl
  · intro st app titulo agora i r h1 hm
    rcases List.getElem?_eq_some.mp h1 with ⟨hi, -⟩
    rw [registrar_programa_progs]
    split
    · rw [List.getElem?_append_left (by simpa using hi), List.getElem?_map, h1]
      simp [hm]
    · rw [List.getElem?_append_left hi]
      exact h1
  · intro okIns st s novo agora i r hs hse hne h1 hstat hopen
    rcases List.getElem?_eq_some.mp h1 with ⟨hi, -⟩
    rw [registrar_status_closes_log okIns novo agora st s hs hse hne]
    have hclose : (st.log.map (closeStatusRow s agora))[i]?
        = some ⟨r.status, r.dataHora, some agora⟩ := by
      rw [List.getElem?_map, h1]
      simp only [Option.map_some', Option.some.injEq]
      unfold closeStatusRow
      rw [if_pos ⟨hstat, hopen⟩]
    split
    · rw [List.getElem?_append_left (by simpa using hi)]
      exact hclose
    · exact hclose

/-- Witness for C3 (amended), part 3: in the two-open-row store of the
counterexample, both open "Ativo" rows, with distinct starts 100 and 200, are
closed with end 500 by the same transition. -/
theorem c3_amended_witness :
    (registrar_status true true "Ocioso" 500
        ⟨some "Ativo", [⟨"Ativo", 100, none⟩, ⟨"Ativo", 200, none⟩]⟩).log[0]?
        = some ⟨"Ativo", 100, some 500⟩ ∧
    (registrar_status true true "Ocioso" 500
        ⟨some "Ativo", [⟨"Ativo", 100, none⟩, ⟨"Ativo", 200, none⟩]⟩).log[1]?
        = some ⟨"Ativo", 200, some 500⟩ :=
  ⟨c3_amended.2.2 true ⟨some "Ativo", [⟨"Ativo", 100, none⟩, ⟨"Ativo", 200, none⟩]⟩
      "Ativo" "Ocioso" 500 0 ⟨"Ativo", 100, none⟩
      (by decide) (by decide) (by decide) (by decide) (by decide) (by decide),
    c3_amended.2.2 true ⟨some "Ativo", [⟨"Ativo", 100, none⟩, ⟨"Ativo", 200, none⟩]⟩
      "Ativo" "Ocioso" 500 1 ⟨"Ativo", 200, none⟩
      (by decide) (by decide) (by decide) (by decide) (by decide) (by decide)⟩

/-- C4 (confirmed): the aggregated totals are day-scoped on the start date
only.  Adding a row to the table adds to the day-D aggregate exactly its full
effective duration (in SQL hours) when its start date equals D, and nothing
otherwise, with no clipping of the part that lies past midnight; the
effective end is the stored end for a closed row and "now" for an open one. -/
theorem c4_day_scoped_totals :
    (∀ (p : StatusRow → Bool) (r : StatusRow) (rows : List StatusRow) (now d : ℕ),
      daySumQ p (r :: rows) now d
        = (if dateOf r.dataHora = d then (if p r then horasRow r now else 0) else 0)
            + daySumQ p rows now d) ∧
    (∀ (st2 : String) (s e n2 : ℕ), effEnd ⟨st2, s, some e⟩ n2 = e) ∧
    (∀ (st2 : String) (s n2 : ℕ), effEnd ⟨st2, s, none⟩ n2 = n2) := by
  refine ⟨?_, fun st2 s e n2 => rfl, fun st2 s n2 => rfl⟩
  intro p r rows now d
  unfold daySumQ rowsDoDia
  rw [List.filter_cons]
  by_cases hd : dateOf r.dataHora = d
  · rw [if_pos hd]
    simp [hd]
  · rw [if_neg hd]
    rw [if_neg (by simpa using hd)]
    simp

/-- C5 counterexample: for a day with zero recorded intervals the query row is
("00:00", "00:00", "00:00", NULL): SQLite SUM over no rows is NULL, so the
ROUND(100.0 * idle / total, 2) expression is NULL, which Python receives as
None, not as the claimed 0. -/
theorem c5_counterexample :
    consultaHoras [] 0 0 = ("00:00", "00:00", "00:00", none) ∧
    (none : Option ℚ) ≠ some 0 := by
  exact ⟨by decide, by decide⟩

/-- C5 (amended): for a day with zero recorded intervals the three durations
display as 00:00 (printf renders the NULL sums as 0), and the idle percentage
is NULL (None in Python), not 0: the division is never defined as 0 for an
empty or zero total. -/
theorem c5_amended :
    ∀ (now d : ℕ), consultaHoras [] now d = ("00:00", "00:00", "00:00", none) := by
  intro now d
  rfl

/-- C6 counterexample: with the old status "Ativo" and one open "Ativo" row, a
tick whose INSERT fails (okIns = false) still advances status_atual to
"Ocioso" and leaves the table without the new open row, while the claim says
the in-memory state is not advanced on a failed store write. -/
theorem c6_counterexample :
    (registrar_status true false "Ocioso" 5 ⟨some "Ativo", [⟨"Ativo", 0, none⟩]⟩).statusAtual
        = some "Ocioso" ∧
    (registrar_status true false "Ocioso" 5 ⟨some "Ativo", [⟨"Ativo", 0, none⟩]⟩).log
        = [⟨"Ativo", 0, some 5⟩] ∧
    some "Ocioso" ≠ some "Ativo" := by
  exact ⟨by decide, by decide, by decide⟩

/-- C6 (amended): executar swallows the sqlite error and registrar_status
ignores its result, so after any tick, with either write failing or not,
status_atual always equals the freshly classified status; a second tick with
the same idle sample is therefore a complete no-op (the lost transition is
never retried). -/
theorem c6_amended :
    ∀ (okUpd okIns : Bool) (limite idle : ℚ) (agora : ℕ) (st : StatusState),
      (registrar_status okUpd okIns (statusOf limite idle) agora st).statusAtual
          = some (statusOf limite idle) ∧
      ∀ (okUpd2 okIns2 : Bool) (agora2 : ℕ),
        registrar_status okUpd2 okIns2 (statusOf limite idle) agora2
            (registrar_status okUpd okIns (statusOf limite idle) agora st)
          = registrar_status okUpd okIns (statusOf limite idle) agora st := by
  intro okUpd okIns limite idle agora st
  refine ⟨registrar_status_statusAtual okUpd okIns _ agora st, ?_⟩
  intro okUpd2 okIns2 agora2
  exact registrar_status_noop okUpd2 okIns2 _ agora2 _
    (registrar_status_statusAtual okUpd okIns _ agora st)

/-- C7 counterexample: from the state whose last observed pair is
(NULL, NULL) with its open row stored (start 2), sampling the new pair
("b", "u") at second 3 leaves the open (NULL, NULL) row with end NULL instead
of closing it with end 3 as the claim requires; only the new row is opened. -/
theorem c7_counterexample :
    (registrar_programa (some "b") (some "u") 3
        ⟨none, none, some 2, [⟨none, none, 2, none⟩]⟩).progs
      = [⟨none, none, 2, none⟩, ⟨some "b", some "u", 3, none⟩] := by
  decide

/-- C7 (amended): the close-then-open rule is not applied from a state whose
last observed program is falsy (None or empty): the guard
`if self.ultimo_app and self.inicio_app` skips the UPDATE, so the step only
appends the new open row and refreshes the in-memory pair and start. -/
theorem c7_amended :
    ∀ (st : ProgState) (app titulo : Option String) (agora : ℕ),
      pyTruthy st.ultimoApp = false →
      (registrar_programa app titulo agora st).progs
          = st.progs ++ [⟨app, titulo, agora, none⟩] ∧
      (registrar_programa app titulo agora st).ultimoApp = app ∧
      (registrar_programa app titulo agora st).ultimoTitulo = titulo ∧
      (registrar_programa app titulo agora st).inicioApp = some agora := by
  intro st app titulo agora h
  refine ⟨?_, rfl, rfl, rfl⟩
  rw [registrar_programa_progs]
  rw [if_neg (by simp [h])]

/-- Witness for C7 (amended): the concrete (NULL, NULL) state of the
counterexample only gains the new open row. -/
theorem c7_amended_witness :
    pyTruthy (none : Option String) = false ∧
    (registrar_programa (some "b") (some "u") 3
        ⟨none, none, some 2, [⟨none, none, 2, none⟩]⟩).progs
      = [⟨none, none, 2, none⟩] ++ [⟨some "b", some "u", 3, none⟩] :=
  ⟨by decide,
    (c7_amended ⟨none, none, some 2, [⟨none, none, 2, none⟩]⟩ (some "b") (some "u") 3
      (by decide)).1⟩

/-- C8 counterexample: under the IEEE-754 binary64 semantics of SQLite REAL
(rounding to nearest, ties to even, at the julianday division and at every
arithmetic step), the single closed interval of exactly 3600 seconds starting
at timestamp 1700000240 (22:17:20 of day 19675) displays as 00:59 through the
julianday pipeline, while the direct integer-second computation gives 01:00:
the two julianday roundings leave the hour sum just below 1.0, which CAST
truncates to 0 hours and 59 minutes.  The claimed identity between the
fractional-day computation and integer second differences is therefore false
of the program. -/
theorem c8_counterexample :
    printfHHMMD (sumCaseD (fun _ => true) [⟨"Ativo", 1700000240, some 1700003840⟩] 0 19675)
        = "00:59" ∧
    specHHMM (daySeconds (fun _ => true) [⟨"Ativo", 1700000240, some 1700003840⟩] 0 19675)
        = "01:00" ∧
    ("00:59" : String) ≠ "01:00" := by
  exact ⟨by with_unfolding_all decide, by decide, by decide⟩

/-- C8 (amended): under exact arithmetic on the stored second-granularity
timestamps (SQLite REAL modelled as exact rationals), for any set of rows
whose effective ends do not precede their starts, the HH:MM string computed
by the query through fractional-day julianday arithmetic, SQLite CAST
truncation and the SQLite integer % operator equals the integer-minute
truncation of the summed whole-second durations (hours = total seconds / 3600
= total minutes / 60, minutes shown = total minutes % 60, seconds discarded,
not rounded), for the total, active and idle sums alike (any CASE filter p).
Under the actual binary64 rounding of SQLite REAL the identity can fail at
exact minute and hour boundaries (see the counterexample). -/
theorem c8_duration_format_consistency :
    ∀ (p : StatusRow → Bool) (rows : List StatusRow) (now d : ℕ),
      (∀ r ∈ rowsDoDia rows d, r.dataHora ≤ effEnd r now) →
      printfHHMM (sumCase p rows now d) = specHHMM (daySeconds p rows now d) := by
  intro p rows now d h
  unfold sumCase
  by_cases hemp : (rowsDoDia rows d).isEmpty = true
  · rw [if_pos hemp]
    have h0 : daySeconds p rows now d = 0 := by
      unfold daySeconds
      rw [List.isEmpty_iff.mp hemp]
      rfl
    rw [h0]
    rfl
  · rw [if_neg hemp]
    have hq : daySumQ p rows now d = ((daySeconds p rows now d : ℕ) : ℚ) / 3600 :=
      sum_hours_eq (rowsDoDia rows d) p now h
    rw [hq]
    generalize daySeconds p rows now d = S
    have hh : sqliteCastInt ((S : ℚ) / 3600) = ((S / 3600 : ℕ) : ℤ) := by
      have h4 := sqliteCastInt_natCast_div S 3600 (by norm_num)
      simpa using h4
    have hmm60 : sqliteMod ((S : ℚ) / 3600 * 60) 60 = ((S / 60 % 60 : ℕ) : ℤ) := by
      have h1 : (S : ℚ) / 3600 * 60 = (S : ℚ) / 60 := by ring
      rw [h1]
      unfold sqliteMod
      have h2 : sqliteCastInt ((S : ℚ) / 60) = ((S / 60 : ℕ) : ℤ) := by
        have h5 := sqliteCastInt_natCast_div S 60 (by norm_num)
        simpa using h5
      have h3 : sqliteCastInt (60 : ℚ) = (60 : ℤ) := by
        unfold sqliteCastInt
        rw [if_pos (by norm_num), show (60 : ℚ) = ((60 : ℕ) : ℚ) by norm_num,
          Int.floor_natCast]
        norm_num
      rw [h2, h3]
      exact_mod_cast tmod_natCast (S / 60) 60
    show pad2 (sqliteCastInt ((S : ℚ) / 3600)) ++ ":"
        ++ pad2 (sqliteMod ((S : ℚ) / 3600 * 60) 60) = specHHMM S
    rw [hh, hmm60]
    unfold specHHMM
    rw [Nat.div_div_eq_div_mul, show (60 * 60 : ℕ) = 3600 by norm_num]

/-- Witness for C8: one closed interval of 3599 seconds on the selected day
formats as 00:59 by both computations. -/
theorem c8_duration_format_consistency_witness :
    (∀ r ∈ rowsDoDia [⟨"Ativo", 0, some 3599⟩] 0, r.dataHora ≤ effEnd r 7200) ∧
    printfHHMM (sumCase (fun _ => true) [⟨"Ativo", 0, some 3599⟩] 7200 0)
      = specHHMM (daySeconds (fun _ => true) [⟨"Ativo", 0, some 3599⟩] 7200 0) :=
  ⟨by decide,
    c8_duration_format_consistency (fun _ => true) [⟨"Ativo", 0, some 3599⟩] 7200 0 (by decide)⟩

set_option maxRecDepth 20000 in
/-- C9 counterexample: for the single interval Active 09:00-09:02 the marking
loop runs over range(min_inicio, min_fim + 1), which includes the end minute
542; slot 542 is therefore marked Active (green), while the claim says only
slots 540 and 541 carry an interval mark and slot 542, inside working hours,
would be the lightblue fill. -/
theorem c9_counterexample :
    (timelineColors [⟨"Ativo", 32400, some 32520⟩] 0 0).get? 542 = some Cor.green ∧
    Cor.green ≠ Cor.lightblue := by
  exact ⟨by decide, by decide⟩

set_option maxRecDepth 20000 in
set_option maxHeartbeats 2000000 in
/-- C9 (amended): for a day whose only interval is Active 09:00-09:02 the
reconstructed per-minute grid marks exactly slots 540, 541 and 542 Active
(the loop endpoint is inclusive), and every other slot of the day carries no
interval mark except the default working-hours fill: lightblue on the
remaining slots of [480, 1080), gray elsewhere. -/
theorem c9_amended :
    confereLista expectedGridC9 0 (timelineColors [⟨"Ativo", 32400, some 32520⟩] 0 0) = true ∧
    (timelineColors [⟨"Ativo", 32400, some 32520⟩] 0 0).length = 1440 := by
  exact ⟨by decide, by decide⟩

/-- C10 (confirmed): a row that starts on the selected day but whose effective
end falls at a smaller minute-of-day (as happens when the end lies on a later
day before the start's wall-clock minute) marks no slot at all: the marking
loop runs from the start minute to the end minute with no day awareness, and
that range is empty. -/
theorem c10_cross_midnight_no_marks :
    ∀ (c : List Cor) (r : StatusRow) (hoje now : ℕ),
      dateOf r.dataHora = hoje →
      minuteOfDay (effEnd r now) < minuteOfDay r.dataHora →
      marcarRow hoje now c r = c := by
  intro c r hoje now hd hlt
  unfold marcarRow
  rw [if_neg (by simp [hd])]
  unfold marcarFaixa
  exact marcarDesde_id _ hlt 0 c

/-- Witness for C10: the row from 23:30 of day 0 to 00:10 of day 1 leaves the
all-gray grid untouched. -/
theorem c10_cross_midnight_no_marks_witness :
    dateOf 84600 = 0 ∧
    minuteOfDay (effEnd ⟨"Ativo", 84600, some 87000⟩ 0) < minuteOfDay 84600 ∧
    marcarRow 0 0 (List.replicate 1440 Cor.gray) ⟨"Ativo", 84600, some 87000⟩
      = List.replicate 1440 Cor.gray :=
  ⟨by decide, by decide,
    c10_cross_midnight_no_marks (List.replicate 1440 Cor.gray) ⟨"Ativo", 84600, some 87000⟩
      0 0 (by decide) (by decide)⟩
